import Mathlib

/-!
Shallow embedding of `gmail/message.py` (the `Message` / `Attachment` classes
and the module-level helpers `parse_headers`, `parse_flags`, `parse_labels`,
`parse_subject`), together with theorems settling the claims about it.

Conventions of the embedding:
* Python strings are `String`; byte strings are `List Nat`.
* `None`-able values are `Option`.
* The `email.message.Message` object produced by `email.message_from_bytes`
  is modelled by the inductive `MimeMsg`: a non-multipart part carries its
  undecoded string payload (`get_payload()`) and its transfer-decoded byte
  payload (`get_payload(decode=True)`, which the email library computes from
  the Content-Transfer-Encoding); a multipart part carries its sub-parts
  (its `_payload` list).  Each node carries its header list (`_headers`,
  ordered pairs, duplicates allowed) and the filename that
  `get_filename()` extracts from its Content-Disposition parameters.
* Regex searches of the source (`re.search`, `imaplib.ParseFlags`) are
  implemented as explicit character-list scans with the same
  leftmost-match (resp. anchored greedy) semantics as the patterns used.
-/

/-- Python truthiness of a decoded-bytes / string / list style value is
captured per use site; `pyRoundKB` models `int(round(n / 1000.0))` for a
byte count `n` (CPython `round` is round-half-to-even; for the payload
sizes in scope the float division `n / 1000.0` is exactly rounded, so the
integer computation below agrees with it). -/
def pyRoundKB (n : Nat) : Nat :=
  let q := n / 1000
  let r := n % 1000
  if r < 500 then q
  else if 500 < r then q + 1
  else if q % 2 = 0 then q else q + 1

/-- Does the pattern `pat` occur at the head of `s`? (`str.startswith`). -/
def lstartsWith : List Char → List Char → Bool
  | [], _ => true
  | _ :: _, [] => false
  | a :: as, b :: bs => a = b && lstartsWith as bs

/-- Does the pattern `pat` occur anywhere in `s`? (substring test, used to
state "the marker is absent from the header block"). -/
def hasSubstr (pat : List Char) : List Char → Bool
  | [] => lstartsWith pat []
  | c :: rest => lstartsWith pat (c :: rest) || hasSubstr pat rest

/-- String-level wrapper for `hasSubstr`. -/
def hasSubstrStr (pat s : String) : Bool :=
  hasSubstr pat.toList s.toList

/-- `"X-GM-LABELS ("`: the literal part of the pattern
`X-GM-LABELS \(([^\)]+)\)` of `parse_labels`. -/
def gmLabelsMarker : List Char := "X-GM-LABELS (".toList

/-- Attempt of the `parse_labels` pattern at the current position: the
literal marker, then a greedy non-empty run of non-`')'` characters, then
`')'`.  Returns the captured group. -/
def gmLabelsMatchAt (s : List Char) : Option (List Char) :=
  if lstartsWith gmLabelsMarker s then
    let rest := s.drop gmLabelsMarker.length
    let cap := rest.takeWhile (fun c => c ≠ ')')
    if cap.isEmpty then none
    else
      match rest.drop cap.length with
      | ')' :: _ => some cap
      | _ => none
  else none

/-- `re.search` for the `parse_labels` pattern: leftmost position at which
the whole pattern matches. -/
def gmLabelsSearch : List Char → Option (List Char)
  | [] => none
  | c :: rest =>
    match gmLabelsMatchAt (c :: rest) with
    | some cap => some cap
    | none => gmLabelsSearch rest

/-- Python `s.split(' ')`: split at every single space character, keeping
empty pieces. -/
def splitOnSpace : List Char → List (List Char)
  | [] => [[]]
  | c :: rest =>
    if c = ' ' then [] :: splitOnSpace rest
    else
      match splitOnSpace rest with
      | t :: ts => (c :: t) :: ts
      | [] => [[c]]

/-- `parse_labels(headers)` from the source: search the header block for
`X-GM-LABELS \(([^\)]+)\)`; on a match, split the captured group on single
spaces and delete every `'"'` character from each piece
(`l.replace('"', '')`); otherwise return the empty list. -/
def parse_labels (headers : String) : List String :=
  match gmLabelsSearch headers.toList with
  | some cap =>
    (splitOnSpace cap).map (fun l => String.mk (l.filter (fun ch => ch ≠ '"')))
  | none => []

/-- `"FLAGS ("`: the literal part of the `imaplib.ParseFlags` pattern
`.*FLAGS \((?P<flags>[^\)]*)\)` (the capture may be empty). -/
def flagsMarker : List Char := "FLAGS (".toList

/-- Attempt of the `ParseFlags` pattern at the current position. -/
def flagsMatchAt (s : List Char) : Option (List Char) :=
  if lstartsWith flagsMarker s then
    let rest := s.drop flagsMarker.length
    let cap := rest.takeWhile (fun c => c ≠ ')')
    match rest.drop cap.length with
    | ')' :: _ => some cap
    | _ => none
  else none

/-- `imaplib.ParseFlags` matching: the pattern is anchored with a greedy
(non-newline) `.*`, so the rightmost occurrence of `FLAGS (...)` whose
start is not preceded by a newline wins. -/
def flagsSearch : List Char → Option (List Char)
  | [] => none
  | c :: rest =>
    match (if c = '\n' then none else flagsSearch rest) with
    | some cap => some cap
    | none => flagsMatchAt (c :: rest)

/-- Python `bytes.split()` (no argument): split on runs of whitespace,
dropping empty pieces.  `acc` is the current token, reversed. -/
def splitWsGo (acc : List Char) : List Char → List (List Char)
  | [] => if acc.isEmpty then [] else [acc.reverse]
  | c :: rest =>
    if c.isWhitespace then
      if acc.isEmpty then splitWsGo [] rest
      else acc.reverse :: splitWsGo [] rest
    else splitWsGo (c :: acc) rest

/-- `parse_flags(headers)` from the source: `list(ParseFlags(headers))`. -/
def parse_flags (headers : String) : List String :=
  match flagsSearch headers.toList with
  | some cap => (splitWsGo [] cap).map String.mk
  | none => []

/-- Attempt of a `MARKER (\d+)` pattern (`X-GM-THRID`, `X-GM-MSGID`) at the
current position: the literal marker (including its trailing space), then a
greedy non-empty digit run. -/
def numMatchAt (marker : List Char) (s : List Char) : Option (List Char) :=
  if lstartsWith marker s then
    let ds := (s.drop marker.length).takeWhile (fun c => c.isDigit)
    if ds.isEmpty then none else some ds
  else none

/-- `re.search` for a `MARKER (\d+)` pattern: leftmost match. -/
def numSearch (marker : List Char) : List Char → Option (List Char)
  | [] => none
  | c :: rest =>
    match numMatchAt marker (c :: rest) with
    | some ds => some ds
    | none => numSearch marker rest

/-- One node of the MIME tree produced by `email.message_from_bytes`.
A `leaf` is a non-multipart part: `hdrs` is its ordered header list
(`_headers`), `mt`/`st` its content main/sub type, `rawPayload` the string
returned by `get_payload()`, `decoded` the bytes returned by
`get_payload(decode=True)` (the email library's transfer decoding of the
raw payload), `fname` the result of `get_filename()`.  A `multi` node is a
`multipart/*` part whose `_payload` is the list `parts`; on it
`get_payload(decode=True)` returns `None`. -/
inductive MimeMsg where
  | leaf (hdrs : List (String × String)) (mt st : String)
      (rawPayload : String) (decoded : List Nat) (fname : Option String)
  | multi (hdrs : List (String × String)) (st : String)
      (fname : Option String) (parts : List MimeMsg)

/-- `message._headers` of a node. -/
def mimeHdrs : MimeMsg → List (String × String)
  | .leaf h _ _ _ _ _ => h
  | .multi h _ _ _ => h

/-- `message.get_content_maintype()`. -/
def maintype : MimeMsg → String
  | .leaf _ mt _ _ _ _ => mt
  | .multi _ _ _ _ => "multipart"

/-- `message.get_content_type()` (maintype/subtype). -/
def contentType : MimeMsg → String
  | .leaf _ mt st _ _ _ => mt ++ "/" ++ st
  | .multi _ st _ _ => "multipart" ++ "/" ++ st

/-- `message.get_payload()` for the non-multipart branch of `parse` (the
multipart case never reaches this accessor). -/
def rawPayloadOf : MimeMsg → String
  | .leaf _ _ _ rp _ _ => rp
  | .multi _ _ _ _ => ""

/-- `message.get_payload(decode=True)`: bytes for a non-multipart part,
`None` for a multipart part. -/
def decodedPayloadOpt : MimeMsg → Option (List Nat)
  | .leaf _ _ _ _ d _ => some d
  | .multi _ _ _ _ => none

/-- Transfer-decoded bytes of a non-multipart part (only ever read on
parts whose content type is `text/plain` or `text/html`, which are always
leaves). -/
def decodedBytes : MimeMsg → List Nat
  | .leaf _ _ _ _ d _ => d
  | .multi _ _ _ _ => []

/-- `message.get_filename()`. -/
def getFilename : MimeMsg → Option String
  | .leaf _ _ _ _ _ f => f
  | .multi _ _ f _ => f

/-- Iterating over `message._payload` in the attachment comprehension of
`Message.parse`: for a multipart message this is the list of top-level
sub-parts; for a non-multipart message `_payload` is a `str`, whose
iteration yields characters, all of which the comprehension's
`not isinstance(attachment, str)` guard removes — hence the empty list. -/
def topParts : MimeMsg → List MimeMsg
  | .leaf _ _ _ _ _ _ => []
  | .multi _ _ _ ps => ps

mutual

/-- `message.walk()`: depth-first, the node itself first, then (for
multipart nodes) the walk of each sub-part in order. -/
def walk : MimeMsg → List MimeMsg
  | .leaf h mt st rp d f => [.leaf h mt st rp d f]
  | .multi h st f ps => .multi h st f ps :: walkList ps

/-- `walk` of each part of a list in order, concatenated. -/
def walkList : List MimeMsg → List MimeMsg
  | [] => []
  | p :: ps => walk p ++ walkList ps

end

/-- ASCII `str.lower` on one character (header names are ASCII). -/
def pyLowerChar (c : Char) : Char :=
  if 65 ≤ c.toNat ∧ c.toNat ≤ 90 then Char.ofNat (c.toNat + 32) else c

/-- ASCII `str.lower` on a string. -/
def pyLower (s : String) : String :=
  String.mk (s.toList.map pyLowerChar)

/-- `message[name]` / `message.get(name)` of the email library: the value
of the first header whose name matches case-insensitively, else `None`. -/
def pyGet (hdrs : List (String × String)) (name : String) : Option String :=
  (hdrs.find? (fun p => pyLower p.1 = pyLower name)).map (fun p => p.2)

/-- Assignment `d[k] = v` on a Python `dict` modelled as an insertion-ordered
association list: replace the value in place if the key is present
(exact, case-sensitive comparison), else append. -/
def dictInsert : List (String × Option String) → String → Option String →
    List (String × Option String)
  | [], k, v => [(k, v)]
  | (k', v') :: rest, k, v =>
    if k' = k then (k, v) :: rest else (k', v') :: dictInsert rest k v

/-- Lookup `d[k]` on the modelled `dict` (exact key comparison). -/
def dictGet : List (String × Option String) → String → Option (Option String)
  | [], _ => none
  | (k', v') :: rest, k => if k' = k then some v' else dictGet rest k

/-- `parse_headers(message)` from the source:
`for hdr in list(message.keys()): hdrs[hdr] = message[hdr]`.
`keys()` lists header names as received, duplicates included; each
assignment stores `message[hdr]`, i.e. the first case-insensitive
occurrence's value. -/
def parse_headers (hdrs : List (String × String)) : List (String × Option String) :=
  (hdrs.map Prod.fst).foldl (fun d k => dictInsert d k (pyGet hdrs k)) []

/-- Modelled from the spec (claim C4's words): a header map in which each
header name is bound to its own raw value, so on duplicate names the value
of the last occurrence wins. -/
def parse_headers_lastwins (hdrs : List (String × String)) :
    List (String × Option String) :=
  hdrs.foldl (fun d p => dictInsert d p.1 (some p.2)) []

/-- The `Attachment` object: `name = attachment.get_filename()`,
`payload = attachment.get_payload(decode=True)`,
`size = int(round(len(payload) / 1000.0))` with the `TypeError` fallback
`size = 0` when the payload is `None`. -/
structure PyAttachment where
  name : Option String
  payload : Option (List Nat)
  size : Nat
  deriving DecidableEq

/-- `Attachment.__init__` applied to one MIME part. -/
def mkAttachment (p : MimeMsg) : PyAttachment :=
  { name := getFilename p
    payload := decodedPayloadOpt p
    size :=
      match decodedPayloadOpt p with
      | none => 0
      | some bs => pyRoundKB bs.length }

/-- `Attachment.__bool__`: `bool(self.size)`. -/
def attachmentBool (a : PyAttachment) : Bool :=
  a.size ≠ 0

/-- The attachment comprehension of `Message.parse`: over `_payload`, keep
the non-`str` entries that have a Content-Disposition header (any value),
build an `Attachment` from each, then drop the falsy ones. -/
def parseAttachments (m : MimeMsg) : List PyAttachment :=
  (((topParts m).filter
      (fun p => pyGet (mimeHdrs p) "Content-Disposition" ≠ none)).map
    mkAttachment).filter attachmentBool

/-- Modelled from the spec (claim C6's words): the same pipeline but
keeping only the parts whose disposition metadata indicates "attachment"
(Content-Disposition value whose disposition type is `attachment`). -/
def specAttachments (m : MimeMsg) : List PyAttachment :=
  (((topParts m).filter
      (fun p =>
        "attachment".isPrefixOf
          ((pyGet (mimeHdrs p) "Content-Disposition").getD ""))).map
    mkAttachment).filter attachmentBool

/-- Result of `email.utils.parsedate_tz` on a parseable `Date` header.
The nine calendar fields of the 10-tuple (year … second, plus the unused
weekday/yearday/dst slots) are represented by the wall-clock reading they
denote, encoded as seconds on the epoch scale (`calendar.timegm` of the
fields); `tzoff` is the 10th element, the UTC offset in seconds embedded
in the header. -/
structure DateTuple where
  naiveSeconds : Int
  tzoff : Int
  deriving DecidableEq

/-- `time.mktime` in a process whose local zone is `L` seconds east of
UTC: interpret a 9-tuple of wall-clock fields as local time and return
epoch seconds. -/
def pyMktime (L : Int) (naive : Int) : Int := naive - L

/-- Naive `datetime.datetime.fromtimestamp` in the same process: epoch
seconds to local wall-clock fields (the resulting naive datetime is
represented by its wall-clock reading on the epoch scale). -/
def pyFromtimestampNaive (L : Int) (epoch : Int) : Int := epoch + L

/-- The `sent_at` computation of `Message.parse`:
`datetime.datetime.fromtimestamp(time.mktime(parsedate_tz(date)[:9]))`.
The `[:9]` slice keeps only the calendar fields (`t.naiveSeconds`) and
discards the 10th element (`t.tzoff`). -/
def sent_at_code (L : Int) (t : DateTuple) : Int :=
  pyFromtimestampNaive L (pyMktime L t.naiveSeconds)

/-- Modelled from the spec (claim C3's words): the point in time denoted
by the `Date` header when its wall-clock fields are interpreted using the
UTC offset embedded in the header itself (epoch seconds). -/
def denotedInstant (t : DateTuple) : Int :=
  t.naiveSeconds - t.tzoff

/-- Value held by `self.body` / `self.html`: the multipart branch stores
the bytes of `get_payload(decode=True)`, the non-multipart `text` branch
stores the string of `get_payload()`. -/
inductive BodyVal where
  | bstr (s : String)
  | bbytes (b : List Nat)
  deriving DecidableEq

/-- One step of the body-extraction loop of `Message.parse`: a
`text/plain` part overwrites `body`, a `text/html` part overwrites
`html`, anything else leaves the pair unchanged. -/
def bodyStep (acc : Option BodyVal × Option BodyVal) (c : MimeMsg) :
    Option BodyVal × Option BodyVal :=
  if contentType c = "text/plain" then (some (.bbytes (decodedBytes c)), acc.2)
  else if contentType c = "text/html" then (acc.1, some (.bbytes (decodedBytes c)))
  else acc

/-- The body/html extraction of `Message.parse`, starting from the
previous values of the two attributes (`init`): multipart messages fold
`bodyStep` over the walk; non-multipart `text` messages take the raw
string payload as `body` and leave `html` untouched; anything else leaves
both untouched. -/
def extractBodies (m : MimeMsg) (init : Option BodyVal × Option BodyVal) :
    Option BodyVal × Option BodyVal :=
  if maintype m = "multipart" then (walk m).foldl bodyStep init
  else if maintype m = "text" then (some (.bstr (rawPayloadOf m)), init.2)
  else init

/-- `parse_subject` of the source joins the `decode_header` pieces of the
subject back into one string; the charset decoding itself is a library
call, modelled as the identity on the raw header value. -/
def parse_subject (encoded_subject : Option String) : Option String :=
  encoded_subject

/-- The mutable attribute state of one `Message` object (everything
`__init__` sets; `gmail`/`mailbox`/`thread` are collaborator references
outside the parsed data model). -/
structure MsgState where
  uid : String
  message : Option MimeMsg
  headers : List (String × Option String)
  subject : Option String
  body : Option BodyVal
  html : Option BodyVal
  to_ : Option String
  fr : Option String
  cc : Option String
  delivered_to : Option String
  sent_at : Option Int
  flags : List String
  labels : List String
  thread_id : Option String
  message_id : Option String
  attachments : Option (List PyAttachment)

/-- One entry of a FETCH response, as consumed by `Message.parse`:
`rawHeaders` is the decoded metadata block (`raw_message[0]`), `mime` the
MIME tree parsed from the body bytes (`raw_message[1]`), and `dateTuple`
the `parsedate_tz` reading of the message's `Date` header (the claims in
scope assume a parseable header; an unparseable one raises in the
source). -/
structure RawMsg where
  rawHeaders : String
  mime : MimeMsg
  dateTuple : DateTuple

/-- `Message.parse(raw_message)`: populate every parsed attribute from one
FETCH response entry, in source order.  `L` is the UTC offset (seconds
east) of the process-local timezone used by `time.mktime` /
`datetime.fromtimestamp`.  Attributes the source does not assign
(`cc`; `thread_id`/`message_id` when their marker is absent; `html` in the
non-multipart branch; `body` when no branch assigns it) keep their
previous values. -/
def Message.parse (L : Int) (s : MsgState) (raw : RawMsg) : MsgState :=
  let m := raw.mime
  let bh := extractBodies m (s.body, s.html)
  { s with
    message := some m
    headers := parse_headers (mimeHdrs m)
    to_ := pyGet (mimeHdrs m) "to"
    fr := pyGet (mimeHdrs m) "from"
    delivered_to := pyGet (mimeHdrs m) "delivered_to"
    subject := parse_subject (pyGet (mimeHdrs m) "subject")
    body := bh.1
    html := bh.2
    sent_at := some (sent_at_code L raw.dateTuple)
    flags := parse_flags raw.rawHeaders
    labels := parse_labels raw.rawHeaders
    thread_id :=
      match numSearch "X-GM-THRID ".toList raw.rawHeaders.toList with
      | some ds => some (String.mk ds)
      | none => s.thread_id
    message_id :=
      match numSearch "X-GM-MSGID ".toList raw.rawHeaders.toList with
      | some ds => some (String.mk ds)
      | none => s.message_id
    attachments := some (parseAttachments m) }

/-- The data attributes `Message.__init__` sets (the names
`__getattribute__` can be asked for on the parsed data model). -/
inductive Attr where
  | uid | message | headers | subject | body | html
  | to_ | fr | cc | delivered_to | sent_at
  | flags | labels | thread_id | message_id | attachments
  deriving DecidableEq

/-- A Python attribute value, as far as truthiness and comparison of the
modelled attributes are concerned. -/
inductive AttrVal where
  | pyNone
  | pyStr (s : String)
  | pyMime (m : MimeMsg)
  | pyDict (d : List (String × Option String))
  | pyBody (b : BodyVal)
  | pyDateTime (n : Int)
  | pyStrList (l : List String)
  | pyAttList (l : List PyAttachment)

/-- Truthiness of an attribute value. `None`, empty strings, empty bytes,
empty lists and empty dicts are falsy; a `datetime` is always truthy; an
`email.message.Message` defines `__len__` as its header count, so a
message with no headers is falsy. -/
def pyFalsy : AttrVal → Bool
  | .pyNone => true
  | .pyStr s => s = ""
  | .pyMime m => (mimeHdrs m).isEmpty
  | .pyDict d => d.isEmpty
  | .pyBody (.bstr s) => s = ""
  | .pyBody (.bbytes b) => b.isEmpty
  | .pyDateTime _ => false
  | .pyStrList l => l.isEmpty
  | .pyAttList l => l.isEmpty

/-- `object.__getattribute__(self, item)` on the modelled attributes. -/
def attrValue (s : MsgState) : Attr → AttrVal
  | .uid => .pyStr s.uid
  | .message => (s.message.map AttrVal.pyMime).getD .pyNone
  | .headers => .pyDict s.headers
  | .subject => (s.subject.map AttrVal.pyStr).getD .pyNone
  | .body => (s.body.map AttrVal.pyBody).getD .pyNone
  | .html => (s.html.map AttrVal.pyBody).getD .pyNone
  | .to_ => (s.to_.map AttrVal.pyStr).getD .pyNone
  | .fr => (s.fr.map AttrVal.pyStr).getD .pyNone
  | .cc => (s.cc.map AttrVal.pyStr).getD .pyNone
  | .delivered_to => (s.delivered_to.map AttrVal.pyStr).getD .pyNone
  | .sent_at => (s.sent_at.map AttrVal.pyDateTime).getD .pyNone
  | .flags => .pyStrList s.flags
  | .labels => .pyStrList s.labels
  | .thread_id => (s.thread_id.map AttrVal.pyStr).getD .pyNone
  | .message_id => (s.message_id.map AttrVal.pyStr).getD .pyNone
  | .attachments => (s.attachments.map AttrVal.pyAttList).getD .pyNone

/-- The trigger condition of `Message.__getattribute__`:
`not object.__getattribute__(self, item)`. -/
def attrFalsy (s : MsgState) (a : Attr) : Bool :=
  pyFalsy (attrValue s a)

/-- `Message.__getattribute__(self, item)`: if the current value is falsy,
run `self._fetch()` — one FETCH round trip whose response is `raw`,
parsed into the object — then return the (possibly re-parsed) value.
The returned triple makes the side effects observable: whether a fetch
was triggered, the object state afterwards, and the value handed back. -/
def getattribute (L : Int) (s : MsgState) (raw : RawMsg) (a : Attr) :
    Bool × MsgState × AttrVal :=
  if attrFalsy s a then
    let s' := Message.parse L s raw
    (true, s', attrValue s' a)
  else
    (false, s, attrValue s a)

/-- A Python exception escaping a modelled call. -/
inductive PyErr where
  | nameError (n : String)
  | protocolError (msg : String)
  deriving DecidableEq

/-- One remote command issued through `self.gmail.imap.uid`:
`STORE uid op value` (with `op` one of `+FLAGS`, `-FLAGS`,
`+X-GM-LABELS`, `-X-GM-LABELS`). -/
inductive ImapCmd where
  | store (uid : String) (op : String) (value : String)
  deriving DecidableEq

/-- The lazy-access read of a list attribute inside a mutation method
(`self.flags` / `self.labels` go through `__getattribute__`, so an empty
list triggers a `_fetch` whose response is `raw` before the read). -/
def lazyState (L : Int) (raw : RawMsg) (s : MsgState) (a : Attr) : MsgState :=
  if attrFalsy s a then Message.parse L s raw else s

/-- `Message.read()`: always issue `STORE uid +FLAGS \Seen`; if the remote
call raises, the exception propagates and no local field is touched;
otherwise append the flag if the (lazily read) flag list lacks it.
`remote` is the outcome of the session's STORE call, `raw` the response
any lazy refetch would parse. -/
def Message.read (L : Int) (remote : Except PyErr Unit) (raw : RawMsg)
    (s : MsgState) : List ImapCmd × Except PyErr MsgState :=
  ([.store s.uid "+FLAGS" "\\Seen"],
   remote.map fun _ =>
     let s1 := lazyState L raw s .flags
     if "\\Seen" ∈ s1.flags then s1
     else
       let s2 := lazyState L raw s1 .flags
       { s2 with flags := s2.flags ++ ["\\Seen"] })

/-- `Message.unread()`: `STORE uid -FLAGS \Seen`, then remove the flag
(first occurrence, Python `list.remove`) if present. -/
def Message.unread (L : Int) (remote : Except PyErr Unit) (raw : RawMsg)
    (s : MsgState) : List ImapCmd × Except PyErr MsgState :=
  ([.store s.uid "-FLAGS" "\\Seen"],
   remote.map fun _ =>
     let s1 := lazyState L raw s .flags
     if "\\Seen" ∈ s1.flags then
       let s2 := lazyState L raw s1 .flags
       { s2 with flags := s2.flags.erase "\\Seen" }
     else s1)

/-- `Message.star()`: `STORE uid +FLAGS \Flagged`, then append if absent. -/
def Message.star (L : Int) (remote : Except PyErr Unit) (raw : RawMsg)
    (s : MsgState) : List ImapCmd × Except PyErr MsgState :=
  ([.store s.uid "+FLAGS" "\\Flagged"],
   remote.map fun _ =>
     let s1 := lazyState L raw s .flags
     if "\\Flagged" ∈ s1.flags then s1
     else
       let s2 := lazyState L raw s1 .flags
       { s2 with flags := s2.flags ++ ["\\Flagged"] })

/-- `Message.unstar()`: `STORE uid -FLAGS \Flagged`, then remove if
present. -/
def Message.unstar (L : Int) (remote : Except PyErr Unit) (raw : RawMsg)
    (s : MsgState) : List ImapCmd × Except PyErr MsgState :=
  ([.store s.uid "-FLAGS" "\\Flagged"],
   remote.map fun _ =>
     let s1 := lazyState L raw s .flags
     if "\\Flagged" ∈ s1.flags then
       let s2 := lazyState L raw s1 .flags
       { s2 with flags := s2.flags.erase "\\Flagged" }
     else s1)

/-- `Message.add_label(label)`: `STORE uid +X-GM-LABELS label`
(`'%s' % label` is the identity on a string label), then append if
absent. -/
def Message.add_label (L : Int) (remote : Except PyErr Unit) (raw : RawMsg)
    (lab : String) (s : MsgState) : List ImapCmd × Except PyErr MsgState :=
  ([.store s.uid "+X-GM-LABELS" lab],
   remote.map fun _ =>
     let s1 := lazyState L raw s .labels
     if lab ∈ s1.labels then s1
     else
       let s2 := lazyState L raw s1 .labels
       { s2 with labels := s2.labels ++ [lab] })

/-- `Message.remove_label(label)`: `STORE uid -X-GM-LABELS label`, then
remove (first occurrence) if present. -/
def Message.remove_label (L : Int) (remote : Except PyErr Unit) (raw : RawMsg)
    (lab : String) (s : MsgState) : List ImapCmd × Except PyErr MsgState :=
  ([.store s.uid "-X-GM-LABELS" lab],
   remote.map fun _ =>
     let s1 := lazyState L raw s .labels
     if lab ∈ s1.labels then
       let s2 := lazyState L raw s1 .labels
       { s2 with labels := s2.labels.erase lab }
     else s1)

/-- Run one mutation step and keep the resulting object state (on an
exception the object is left as it was). -/
def runOk (step : MsgState → List ImapCmd × Except PyErr MsgState)
    (s : MsgState) : MsgState :=
  match (step s).2 with
  | .ok s' => s'
  | .error _ => s

/-- A minimal model of `mimetypes.guess_type`: media type by file
extension, `none` when unknown. -/
def guess_type (file : String) : Option String :=
  if ".txt".toList.isSuffixOf file.toList then some "text/plain"
  else if ".pdf".toList.isSuffixOf file.toList then some "application/pdf"
  else if ".png".toList.isSuffixOf file.toList then some "image/png"
  else none

/-- An element of the `attachments` argument of `Message.create`: either
an already-built MIME object or a filesystem path (with the bytes that
reading the file would yield). -/
inductive AttachmentArg where
  | mimeObj (m : MimeMsg)
  | path (file : String) (contents : List Nat)

/-- `Message._file_to_mime_attachment(file)`: a MIME object is returned
unchanged; for a path the source guesses the media type, builds a
`MIMEBase` and sets its payload, and then evaluates
`os.path.basename(a)` in the `add_header('Content-Disposition', ...)`
call — but `a` is an unbound name in that scope (the parameter is named
`file`), so Python raises `NameError` there, before the disposition
header is added and before `encode_base64` runs. -/
def Message.file_to_mime_attachment (arg : AttachmentArg) :
    Except PyErr MimeMsg :=
  match arg with
  | .mimeObj m => .ok m
  | .path file contents =>
    let mtype := (guess_type file).getD "application/octet-stream"
    let mainPart := mtype.takeWhile (fun c => c ≠ '/')
    let subPart := (mtype.toList.dropWhile (fun c => c ≠ '/')).drop 1
    let _attachment : MimeMsg :=
      .leaf [("Content-Type", mtype)] mainPart (String.mk subPart) "" contents none
    .error (.nameError "a")

/-- A fully-constructed but unloaded `Message` (what `__init__` leaves
behind), with the given uid and flag list. -/
def testState (u : String) (fl : List String) : MsgState :=
  { uid := u, message := none, headers := [], subject := none, body := none
    html := none, to_ := none, fr := none, cc := none, delivered_to := none
    sent_at := none, flags := fl, labels := [], thread_id := none
    message_id := none, attachments := none }

/-- A small concrete FETCH response: one `\Seen` flag, no labels, a plain
text body. -/
def testRaw : RawMsg :=
  { rawHeaders := "9 (UID 1 FLAGS (\\Seen))"
    mime := .leaf [("Date", "Wed, 1 Jan 2020 00:00:00 +0000")] "text" "plain"
      "hi" [104, 105] none
    dateTuple := { naiveSeconds := 1577836800, tzoff := 0 } }

/-- A small real attachment part: Content-Disposition present, 3 decoded
bytes. -/
def smallDispPart : MimeMsg :=
  .leaf [("Content-Disposition", "attachment")] "application" "octet-stream"
    "abc" [1, 2, 3] (some "x.bin")

/-- A multipart message whose only top-level part is `smallDispPart`. -/
def smallDispMsg : MimeMsg :=
  .multi [("Content-Type", "multipart/mixed")] "mixed" none [smallDispPart]

/-- A part whose Content-Disposition is `inline` (present, but not
indicating "attachment") with a 600-byte payload. -/
def inlinePart : MimeMsg :=
  .leaf [("Content-Disposition", "inline")] "image" "png" ""
    (List.replicate 600 7) (some "logo.png")

/-- A multipart message whose only top-level part is `inlinePart`. -/
def inlineMsg : MimeMsg :=
  .multi [("Content-Type", "multipart/mixed")] "mixed" none [inlinePart]

/-- A multipart FETCH response with two `text/plain` parts and one
`text/html` part, to exercise the last-wins walk order. -/
def multiRaw : RawMsg :=
  { rawHeaders := "7 (UID 7 FLAGS (\\Seen))"
    mime := .multi [("Date", "Wed, 1 Jan 2020 00:00:00 +0000")] "alternative" none
      [.leaf [("Content-Type", "text/plain")] "text" "plain" "first" [102] none,
       .leaf [("Content-Type", "text/html")] "text" "html" "<b>h</b>" [60] none,
       .leaf [("Content-Type", "text/plain")] "text" "plain" "second" [115] none]
    dateTuple := { naiveSeconds := 1577836800, tzoff := 0 } }

/-- C9: `Message._file_to_mime_attachment` on a path-based attachment
raises `NameError` (the unbound name `a` in `os.path.basename(a)`)
instead of producing the claimed MIME part with guessed type, base64
content and an attachment disposition carrying the basename. -/
theorem claim_C9_path_attachment_namerror :
    Message.file_to_mime_attachment (.path "report.pdf" [37, 80, 68, 70]) =
      .error (.nameError "a") := rfl

/-- C3, counterexample: the claim that `sent_at` equals the point in time
denoted by the `Date` header under its embedded UTC offset is false: the
computed `sent_at` is a function of the calendar fields alone, so no
reading of it (even one that may depend on the process-local offset `L`)
can recover the denoted instant — two headers with the same wall-clock
fields `0` but offsets `0` and `3600` denote different instants yet give
the same `sent_at`. -/
theorem claim_C3_cex :
    ¬ ∃ f : Int → Int → Int, ∀ (L : Int) (t : DateTuple),
        f L (sent_at_code L t) = denotedInstant t := by
  rintro ⟨f, hf⟩
  have h1 := hf 0 ⟨0, 0⟩
  have h2 := hf 0 ⟨0, 3600⟩
  simp [sent_at_code, denotedInstant, pyMktime, pyFromtimestampNaive] at h1 h2
  omega

/-- C3, amended: after parse, `sent_at` equals the wall-clock calendar
fields of the `Date` header taken as a naive local timestamp; the `[:9]`
slice discards the embedded UTC offset, so the result is independent of
both that offset and the local zone. -/
theorem claim_C3_amended : ∀ (L : Int) (s : MsgState) (raw : RawMsg),
    (Message.parse L s raw).sent_at = some raw.dateTuple.naiveSeconds := by
  intro L s raw
  show some (sent_at_code L raw.dateTuple) = _
  simp [sent_at_code, pyMktime, pyFromtimestampNaive]

/-- Matching a concatenated pattern at the head implies matching its left
part at the head. -/
theorem lstartsWith_of_append (p q s : List Char)
    (h : lstartsWith (p ++ q) s = true) : lstartsWith p s = true := by
  induction p generalizing s with
  | nil => rfl
  | cons a as ih =>
    cases s with
    | nil => exact absurd h (by simp [lstartsWith])
    | cons b bs =>
      simp only [List.cons_append, lstartsWith, Bool.and_eq_true] at h ⊢
      exact ⟨h.1, ih bs h.2⟩

/-- A successful `parse_labels` search implies the `X-GM-LABELS` token
occurs in the header block. -/
theorem gmLabelsSearch_some_hasSubstr (s : List Char) (cap : List Char)
    (h : gmLabelsSearch s = some cap) :
    hasSubstr "X-GM-LABELS".toList s = true := by
  induction s with
  | nil => exact absurd h (by simp [gmLabelsSearch])
  | cons c rest ih =>
    rw [gmLabelsSearch] at h
    cases e : gmLabelsMatchAt (c :: rest) with
    | some cap' =>
      have hst : lstartsWith gmLabelsMarker (c :: rest) = true := by
        cases hcond : lstartsWith gmLabelsMarker (c :: rest) with
        | true => rfl
        | false =>
          rw [gmLabelsMatchAt, hcond] at e
          simp at e
      have hmk : gmLabelsMarker = "X-GM-LABELS".toList ++ " (".toList := by decide
      rw [hmk] at hst
      have h2 := lstartsWith_of_append "X-GM-LABELS".toList " (".toList
        (c :: rest) hst
      rw [hasSubstr, h2]
      rfl
    | none =>
      rw [e] at h
      simp only at h
      rw [hasSubstr, ih h]
      simp

/-- C5: the label parser returns exactly `["Work", "Important"]` on a
header block containing `X-GM-LABELS ("Work" "Important")` (quotes
stripped, no duplicates), and returns the empty list — not an error — on
any header block in which the `X-GM-LABELS` marker does not occur. -/
theorem claim_C5_labels :
    parse_labels "X-GM-LABELS (\"Work\" \"Important\")" = ["Work", "Important"] ∧
    ∀ h : String, hasSubstrStr "X-GM-LABELS" h = false → parse_labels h = [] := by
  constructor
  · decide
  · intro h hf
    unfold parse_labels
    cases e : gmLabelsSearch h.toList with
    | none => rfl
    | some cap =>
      have := gmLabelsSearch_some_hasSubstr h.toList cap e
      rw [hasSubstrStr] at hf
      rw [hf] at this
      exact absurd this (by simp)

/-- Witness for C5: a concrete header block without the marker yields the
empty label list. -/
theorem claim_C5_witness :
    hasSubstrStr "X-GM-LABELS" "9 (UID 1 FLAGS (\\Seen))" = false ∧
    parse_labels "9 (UID 1 FLAGS (\\Seen))" = [] :=
  ⟨by decide, claim_C5_labels.2 "9 (UID 1 FLAGS (\\Seen))" (by decide)⟩

/-- Byte counts below 500 round to zero whole kilobytes. -/
theorem pyRoundKB_eq_zero_of_lt (n : Nat) (h : n < 500) : pyRoundKB n = 0 := by
  unfold pyRoundKB
  have h1 : n % 1000 = n := Nat.mod_eq_of_lt (by omega)
  have h2 : n / 1000 = 0 := Nat.div_eq_of_lt (by omega)
  simp [h1, h2, h]

/-- C10: a MIME part carrying a Content-Disposition header whose decoded
payload is non-empty but shorter than 500 bytes yields an `Attachment` of
size 0, which is falsy and therefore never a member of any parsed
message's attachment list. -/
theorem claim_C10_small_attachment_dropped :
    ∀ (p : MimeMsg) (bs : List Nat),
      pyGet (mimeHdrs p) "Content-Disposition" ≠ none →
      decodedPayloadOpt p = some bs → bs ≠ [] → bs.length < 500 →
      (mkAttachment p).size = 0 ∧
      attachmentBool (mkAttachment p) = false ∧
      ∀ m : MimeMsg, mkAttachment p ∉ parseAttachments m := by
  intro p bs _ hpay _ hlen
  have hsize : (mkAttachment p).size = 0 := by
    simp [mkAttachment, hpay, pyRoundKB_eq_zero_of_lt bs.length hlen]
  have hb : attachmentBool (mkAttachment p) = false := by
    simp [attachmentBool, hsize]
  refine ⟨hsize, hb, ?_⟩
  intro m hmem
  rw [parseAttachments] at hmem
  have ht := (List.mem_filter.mp hmem).2
  rw [hb] at ht
  exact Bool.false_ne_true ht

/-- Witness for C10: a concrete 3-byte attachment part is size 0, falsy,
and absent from its message's parsed attachment list. -/
theorem claim_C10_witness :
    (mkAttachment smallDispPart).size = 0 ∧
    attachmentBool (mkAttachment smallDispPart) = false ∧
    mkAttachment smallDispPart ∉ parseAttachments smallDispMsg := by
  have h := claim_C10_small_attachment_dropped smallDispPart [1, 2, 3]
    (by decide) rfl (by decide) (by decide)
  exact ⟨h.1, h.2.1, h.2.2 smallDispMsg⟩

/-- Looking up the key just inserted returns the inserted value. -/
theorem dictGet_dictInsert_self (d : List (String × Option String))
    (k : String) (v : Option String) :
    dictGet (dictInsert d k v) k = some v := by
  induction d with
  | nil => simp [dictInsert, dictGet]
  | cons p rest ih =>
    by_cases h : p.1 = k
    · simp [dictInsert, h, dictGet]
    · simp [dictInsert, h, dictGet, ih]

/-- Inserting under a different key does not change a lookup. -/
theorem dictGet_dictInsert_ne (d : List (String × Option String))
    (k k' : String) (v : Option String) (h : k ≠ k') :
    dictGet (dictInsert d k' v) k = dictGet d k := by
  have h' : ¬ k' = k := fun e => h e.symm
  induction d with
  | nil => simp [dictInsert, dictGet, h']
  | cons p rest ih =>
    by_cases hp : p.1 = k'
    · simp [dictInsert, dictGet, hp, h']
    · simp [dictInsert, dictGet, hp, ih]

/-- Key membership after an insertion. -/
theorem mem_keys_dictInsert (d : List (String × Option String))
    (k k' : String) (v : Option String) :
    k ∈ (dictInsert d k' v).map Prod.fst ↔ k = k' ∨ k ∈ d.map Prod.fst := by
  induction d with
  | nil => simp [dictInsert]
  | cons p rest ih =>
    by_cases hp : p.1 = k'
    · simp [dictInsert, hp]
      try tauto
    · simp [dictInsert, hp, ih]
      try tauto

/-- Folding insertions whose values are a function of the key alone:
a key that occurs in the fold ends bound to its function value,
any other key keeps its prior binding. -/
theorem dictGet_foldl_dictInsert (f : String → Option String)
    (ks : List String) (d : List (String × Option String)) (k : String) :
    dictGet (ks.foldl (fun acc q => dictInsert acc q (f q)) d) k =
      if k ∈ ks then some (f k) else dictGet d k := by
  induction ks generalizing d with
  | nil => simp
  | cons q ks ih =>
    rw [List.foldl_cons, ih]
    by_cases hks : k ∈ ks
    · simp [hks]
    · by_cases hq : k = q
      · subst hq
        simp [hks, dictGet_dictInsert_self]
      · simp [hks, hq, dictGet_dictInsert_ne d k q (f q) hq]

/-- Key set of the fold of insertions. -/
theorem mem_keys_foldl_dictInsert (f : String → Option String)
    (ks : List String) (d : List (String × Option String)) (k : String) :
    k ∈ (ks.foldl (fun acc q => dictInsert acc q (f q)) d).map Prod.fst ↔
      k ∈ ks ∨ k ∈ d.map Prod.fst := by
  induction ks generalizing d with
  | nil => simp
  | cons q ks ih =>
    rw [List.foldl_cons, ih, mem_keys_dictInsert]
    simp
    tauto

/-- C4, counterexample: the headers map is not last-write-wins on
duplicated names — on `[("A", "1"), ("A", "2")]` the code binds `"A"` to
the value of the first occurrence, while a last-occurrence-wins map binds
it to the second. -/
theorem claim_C4_cex :
    ¬ ∀ hs : List (String × String), parse_headers hs = parse_headers_lastwins hs := by
  intro h
  exact absurd (h [("A", "1"), ("A", "2")]) (by decide)

/-- C4, amended: after parse the headers map has exactly the received
header names as keys (case preserved), and each key is bound to
`message[name]`, i.e. the value of the first case-insensitively matching
occurrence — so on exact duplicates the first occurrence's value wins,
not the last. -/
theorem claim_C4_amended :
    ∀ (hs : List (String × String)) (k : String),
      (k ∈ hs.map Prod.fst →
        dictGet (parse_headers hs) k = some (pyGet hs k)) ∧
      (k ∈ (parse_headers hs).map Prod.fst ↔ k ∈ hs.map Prod.fst) := by
  intro hs k
  constructor
  · intro hk
    rw [parse_headers, dictGet_foldl_dictInsert]
    simp [hk]
  · rw [parse_headers, mem_keys_foldl_dictInsert]
    simp

/-- Witness for C4: on two case-variant `From` headers both received
names are keys and both are bound to the first case-insensitive match's
value `"a"`. -/
theorem claim_C4_witness :
    dictGet (parse_headers [("From", "a"), ("FROM", "b")]) "FROM" =
      some (pyGet [("From", "a"), ("FROM", "b")] "FROM") ∧
    pyGet [("From", "a"), ("FROM", "b")] "FROM" = some "a" :=
  ⟨(claim_C4_amended [("From", "a"), ("FROM", "b")] "FROM").1 (by decide),
   by decide⟩

/-- C7: each flag/label mutation (`read`, `unread`, `star`, `unstar`,
`add_label`, `remove_label`) issues exactly its one STORE command
regardless of the remote outcome (the command precedes any local update),
and when the remote call raises, the same exception propagates to the
caller and — the local update living entirely inside the success
continuation — the message state is exactly as it was before the call. -/
theorem claim_C7_store_before_update :
    ∀ (L : Int) (e : PyErr) (raw : RawMsg) (s : MsgState) (lab : String)
      (r : Except PyErr Unit),
      ((Message.read L r raw s).1 = [.store s.uid "+FLAGS" "\\Seen"] ∧
        (Message.read L (.error e) raw s).2 = .error e) ∧
      ((Message.unread L r raw s).1 = [.store s.uid "-FLAGS" "\\Seen"] ∧
        (Message.unread L (.error e) raw s).2 = .error e) ∧
      ((Message.star L r raw s).1 = [.store s.uid "+FLAGS" "\\Flagged"] ∧
        (Message.star L (.error e) raw s).2 = .error e) ∧
      ((Message.unstar L r raw s).1 = [.store s.uid "-FLAGS" "\\Flagged"] ∧
        (Message.unstar L (.error e) raw s).2 = .error e) ∧
      ((Message.add_label L r raw lab s).1 = [.store s.uid "+X-GM-LABELS" lab] ∧
        (Message.add_label L (.error e) raw lab s).2 = .error e) ∧
      ((Message.remove_label L r raw lab s).1 = [.store s.uid "-X-GM-LABELS" lab] ∧
        (Message.remove_label L (.error e) raw lab s).2 = .error e) := by
  intro L e raw s lab r
  exact ⟨⟨rfl, rfl⟩, ⟨rfl, rfl⟩, ⟨rfl, rfl⟩, ⟨rfl, rfl⟩, ⟨rfl, rfl⟩, ⟨rfl, rfl⟩⟩

/-- A non-empty flag list is truthy, so the lazy read inside a mutation
does not refetch. -/
theorem lazyState_flags_of_ne_nil (L : Int) (raw : RawMsg) (s : MsgState)
    (h : s.flags ≠ []) : lazyState L raw s .flags = s := by
  rw [lazyState, if_neg]
  simp only [attrFalsy, attrValue, pyFalsy]
  simpa using h

/-- `star()` with a successful remote call, on a message whose flag list
is non-empty: append `\Flagged` unless present. -/
theorem runOk_star_ok (L : Int) (raw : RawMsg) (s : MsgState)
    (h : s.flags ≠ []) :
    runOk (fun s => Message.star L (.ok ()) raw s) s =
      if "\\Flagged" ∈ s.flags then s
      else { s with flags := s.flags ++ ["\\Flagged"] } := by
  rw [runOk, Message.star]
  simp only [Except.map, lazyState_flags_of_ne_nil L raw s h]

/-- `unstar()` with a successful remote call, on a message whose flag
list is non-empty: remove the first `\Flagged` if present. -/
theorem runOk_unstar_ok (L : Int) (raw : RawMsg) (s : MsgState)
    (h : s.flags ≠ []) :
    runOk (fun s => Message.unstar L (.ok ()) raw s) s =
      if "\\Flagged" ∈ s.flags then { s with flags := s.flags.erase "\\Flagged" }
      else s := by
  rw [runOk, Message.unstar]
  simp only [Except.map, lazyState_flags_of_ne_nil L raw s h]

/-- C8, counterexample: the idempotence claim is not true of every
message state.  `parse_flags` preserves duplicates, so a state whose
flag list is `[\Flagged, \Flagged]` is reachable from a server response;
on it two `star()` calls leave two occurrences, not exactly one.
Moreover `unstar()` on a message with an empty flag list (which does not
contain `\Flagged`) triggers the falsy-access refetch, which overwrites
the local flags with the fetched ones — so the flags do not stay
unchanged either. -/
theorem claim_C8_cex :
    parse_flags "9 (FLAGS (\\Flagged \\Flagged))" = ["\\Flagged", "\\Flagged"] ∧
    ¬ (∀ (L : Int) (raw raw2 : RawMsg) (s : MsgState),
        (runOk (fun x => Message.star L (.ok ()) raw2 x)
          (runOk (fun x => Message.star L (.ok ()) raw x) s)).flags.count
            "\\Flagged" = 1) ∧
    ¬ (∀ (L : Int) (raw : RawMsg) (s : MsgState),
        "\\Flagged" ∉ s.flags →
        (runOk (fun x => Message.unstar L (.ok ()) raw x) s).flags = s.flags) := by
  refine ⟨by decide, ?_, ?_⟩
  · intro h
    exact absurd
      (h 0 testRaw testRaw (testState "1" ["\\Flagged", "\\Flagged"]))
      (by decide)
  · intro h
    exact absurd (h 0 testRaw (testState "1" []) (by decide)) (by decide)

/-- C8, amended: on a message whose local flag list is non-empty (so the
falsy-access refetch does not intervene) and contains `\Flagged` at most
once, two `star()` calls with successful remote commands leave exactly
one `\Flagged` entry, and `unstar()` on such a state without `\Flagged`
leaves the flags unchanged. -/
theorem claim_C8_amended :
    ∀ (L : Int) (raw raw2 : RawMsg) (s : MsgState),
      s.flags ≠ [] → s.flags.count "\\Flagged" ≤ 1 →
      ((runOk (fun x => Message.star L (.ok ()) raw2 x)
          (runOk (fun x => Message.star L (.ok ()) raw x) s)).flags.count
            "\\Flagged" = 1) ∧
      ("\\Flagged" ∉ s.flags →
        (runOk (fun x => Message.unstar L (.ok ()) raw x) s).flags = s.flags) := by
  intro L raw raw2 s hne hle
  refine ⟨?_, ?_⟩
  · by_cases hm : "\\Flagged" ∈ s.flags
    · rw [runOk_star_ok L raw s hne, if_pos hm, runOk_star_ok L raw2 s hne,
        if_pos hm]
      have h1 : 0 < s.flags.count "\\Flagged" := List.count_pos_iff.mpr hm
      omega
    · rw [runOk_star_ok L raw s hne, if_neg hm]
      have h0 : s.flags.count "\\Flagged" = 0 := List.count_eq_zero.mpr hm
      have hne2 : ({ s with flags := s.flags ++ ["\\Flagged"] } : MsgState).flags ≠ [] := by
        simp
      rw [runOk_star_ok L raw2 _ hne2,
        if_pos (show "\\Flagged" ∈
          ({ s with flags := s.flags ++ ["\\Flagged"] } : MsgState).flags by simp)]
      simp [List.count_append, h0]
  · intro hnm
    rw [runOk_unstar_ok L raw s hne, if_neg hnm]

/-- Witness for C8 (amended): a concrete read message with one `\Seen`
flag is starred twice to exactly one `\Flagged` entry, and unstarring it
leaves its flags unchanged. -/
theorem claim_C8_witness :
    (testState "1" ["\\Seen"]).flags ≠ [] ∧
    (testState "1" ["\\Seen"]).flags.count "\\Flagged" ≤ 1 ∧
    (runOk (fun x => Message.star 0 (.ok ()) testRaw x)
        (runOk (fun x => Message.star 0 (.ok ()) testRaw x)
          (testState "1" ["\\Seen"]))).flags.count "\\Flagged" = 1 ∧
    (runOk (fun x => Message.unstar 0 (.ok ()) testRaw x)
        (testState "1" ["\\Seen"])).flags = (testState "1" ["\\Seen"]).flags := by
  have h := claim_C8_amended 0 testRaw testRaw (testState "1" ["\\Seen"])
    (by decide) (by decide)
  exact ⟨by decide, by decide, h.1, h.2 (by decide)⟩

set_option maxRecDepth 8192 in
/-- C6, counterexample: the parsed attachment list is not restricted to
parts whose disposition metadata indicates "attachment" — the code only
tests that a Content-Disposition header is present.  On a message whose
single top-level part has `Content-Disposition: inline` and a 600-byte
payload, the code produces one Attachment while the claimed rule
produces none. -/
theorem claim_C6_cex :
    ¬ ∀ m : MimeMsg, parseAttachments m = specAttachments m := by
  intro h
  exact absurd (h inlineMsg) (by decide)

/-- C6, amended: the parsed attachments list contains an Attachment
exactly for each top-level MIME part that is not plain string payload and
that carries a Content-Disposition header of any value (`inline`
included), except that every Attachment whose derived size is zero
(falsy) is dropped. -/
theorem claim_C6_amended :
    ∀ (m : MimeMsg) (a : PyAttachment),
      a ∈ parseAttachments m ↔
        ∃ p, p ∈ topParts m ∧
          pyGet (mimeHdrs p) "Content-Disposition" ≠ none ∧
          mkAttachment p = a ∧ a.size ≠ 0 := by
  intro m a
  rw [parseAttachments]
  constructor
  · intro hmem
    have h1 := List.mem_filter.mp hmem
    obtain ⟨p, hp, hpa⟩ := List.mem_map.mp h1.1
    have h2 := List.mem_filter.mp hp
    refine ⟨p, h2.1, by simpa using h2.2, hpa, ?_⟩
    have := h1.2
    rw [attachmentBool] at this
    simpa using this
  · rintro ⟨p, hp, hd, hpa, hsz⟩
    refine List.mem_filter.mpr ⟨List.mem_map.mpr ⟨p, List.mem_filter.mpr
      ⟨hp, by simpa using hd⟩, hpa⟩, ?_⟩
    rw [attachmentBool]
    simpa using hsz

/-- The first component of the body-extraction fold equals the last
`text/plain` part of the traversal (first of the reversed list), falling
back to the initial accumulator. -/
theorem foldl_bodyStep_fst (l : List MimeMsg)
    (acc : Option BodyVal × Option BodyVal) :
    (l.foldl bodyStep acc).1 =
      match l.reverse.find? (fun c => contentType c = "text/plain") with
      | some c => some (.bbytes (decodedBytes c))
      | none => acc.1 := by
  induction l generalizing acc with
  | nil => rfl
  | cons c t ih =>
    rw [List.foldl_cons, ih, List.reverse_cons, List.find?_append]
    cases e : t.reverse.find? (fun x => decide (contentType x = "text/plain")) with
    | some c' => simp [e, Option.or]
    | none =>
      by_cases hc : contentType c = "text/plain"
      · simp [e, Option.or, bodyStep, hc]
      · by_cases hh : contentType c = "text/html"
        · simp [e, Option.or, bodyStep, hc, hh]
        · simp [e, Option.or, bodyStep, hc, hh]

/-- The second component of the body-extraction fold equals the last
`text/html` part of the traversal, falling back to the initial
accumulator. -/
theorem foldl_bodyStep_snd (l : List MimeMsg)
    (acc : Option BodyVal × Option BodyVal) :
    (l.foldl bodyStep acc).2 =
      match l.reverse.find? (fun c => contentType c = "text/html") with
      | some c => some (.bbytes (decodedBytes c))
      | none => acc.2 := by
  induction l generalizing acc with
  | nil => rfl
  | cons c t ih =>
    rw [List.foldl_cons, ih, List.reverse_cons, List.find?_append]
    cases e : t.reverse.find? (fun x => decide (contentType x = "text/html")) with
    | some c' => simp [e, Option.or]
    | none =>
      by_cases hc : contentType c = "text/plain"
      · have hh : ¬ contentType c = "text/html" := by rw [hc]; decide
        simp [e, Option.or, bodyStep, hc, hh]
      · by_cases hh : contentType c = "text/html"
        · simp [e, Option.or, bodyStep, hc, hh]
        · simp [e, Option.or, bodyStep, hc, hh]

/-- C2: for a multipart raw message, after parse `body` is the decoded
payload of the last `text/plain` part of the depth-first walk and `html`
the decoded payload of the last `text/html` part (later matches
overwrite earlier ones; when a kind is absent the attribute keeps its
prior value); for a non-multipart `text` message, `body` is the raw
string payload and `html` is untouched (unset on a fresh message). -/
theorem claim_C2_body_extraction :
    ∀ (L : Int) (s : MsgState) (raw : RawMsg),
      (maintype raw.mime = "multipart" →
        (Message.parse L s raw).body =
          (match (walk raw.mime).reverse.find?
              (fun c => contentType c = "text/plain") with
           | some c => some (.bbytes (decodedBytes c))
           | none => s.body) ∧
        (Message.parse L s raw).html =
          (match (walk raw.mime).reverse.find?
              (fun c => contentType c = "text/html") with
           | some c => some (.bbytes (decodedBytes c))
           | none => s.html)) ∧
      (maintype raw.mime = "text" →
        (Message.parse L s raw).body = some (.bstr (rawPayloadOf raw.mime)) ∧
        (Message.parse L s raw).html = s.html) := by
  intro L s raw
  constructor
  · intro hm
    constructor
    · show (extractBodies raw.mime (s.body, s.html)).1 = _
      rw [extractBodies, if_pos hm, foldl_bodyStep_fst]
    · show (extractBodies raw.mime (s.body, s.html)).2 = _
      rw [extractBodies, if_pos hm, foldl_bodyStep_snd]
  · intro hm
    have hne : ¬ maintype raw.mime = "multipart" := by
      rw [hm]; decide
    constructor
    · show (extractBodies raw.mime (s.body, s.html)).1 = _
      rw [extractBodies, if_neg hne, if_pos hm]
    · show (extractBodies raw.mime (s.body, s.html)).2 = _
      rw [extractBodies, if_neg hne, if_pos hm]

/-- Witness for C2: on a concrete multipart message with two `text/plain`
parts and one `text/html` part, the second (last) plain part wins as
`body` and the html part lands in `html`; on a concrete plain text
message, `body` is the raw payload and `html` stays unset. -/
theorem claim_C2_witness :
    maintype multiRaw.mime = "multipart" ∧
    (Message.parse 0 (testState "1" []) multiRaw).body = some (.bbytes [115]) ∧
    (Message.parse 0 (testState "1" []) multiRaw).html = some (.bbytes [60]) ∧
    maintype testRaw.mime = "text" ∧
    (Message.parse 0 (testState "1" []) testRaw).body = some (.bstr "hi") ∧
    (Message.parse 0 (testState "1" []) testRaw).html = none := by
  have h1 := (claim_C2_body_extraction 0 (testState "1" []) multiRaw).1 (by decide)
  have h2 := (claim_C2_body_extraction 0 (testState "1" []) testRaw).2 (by decide)
  refine ⟨by decide, ?_, ?_, by decide, h2.1, h2.2⟩
  · rw [h1.1]; rfl
  · rw [h1.2]; rfl

/-- C1: for every attribute read through `__getattribute__`, if the
attribute's current value is falsy (the `None` sentinel, but also a
legitimately-empty value such as an empty label list, empty flag list or
empty body), a fetch-and-parse cycle runs before the (post-parse) value
is returned; consequently on a message already populated by a parse,
any attribute whose value is still falsy triggers a fetch again on every
subsequent access. -/
theorem claim_C1_falsy_triggers_fetch :
    ∀ (L : Int) (s : MsgState) (raw raw2 : RawMsg) (a : Attr),
      (attrFalsy s a = true →
        (getattribute L s raw a).1 = true ∧
        (getattribute L s raw a).2.1 = Message.parse L s raw ∧
        (getattribute L s raw a).2.2 = attrValue (Message.parse L s raw) a) ∧
      (attrFalsy (Message.parse L s raw) a = true →
        (getattribute L (Message.parse L s raw) raw2 a).1 = true) := by
  intro L s raw raw2 a
  constructor
  · intro h
    simp [getattribute, h]
  · intro h
    simp [getattribute, h]

/-- Witness for C1: on a fresh message the empty label list is falsy and
its access fetches; the fetched response carries no labels, so the
re-parsed list is empty again and the next access fetches once more. -/
theorem claim_C1_witness :
    attrFalsy (testState "1" []) .labels = true ∧
    (getattribute 0 (testState "1" []) testRaw .labels).1 = true ∧
    attrFalsy (Message.parse 0 (testState "1" []) testRaw) .labels = true ∧
    (getattribute 0 (Message.parse 0 (testState "1" []) testRaw) testRaw
      .labels).1 = true := by
  have h := claim_C1_falsy_triggers_fetch 0 (testState "1" []) testRaw testRaw
    .labels
  exact ⟨by decide, (h.1 (by decide)).1, by decide, h.2 (by decide)⟩
